import Mathlib

/-!
Verification development for the Rora agent core (`rora_agent`):
the framed stdio protocol server (`server.py`), the bounded-retry test
generation pipeline (`agent/graph.py`), and the pytest execution harness
(`executor/pytest_runner.py`).

Text is modelled as `List Char`.  External collaborators (the Python `ast`
parser, the JSON codec, the language model, the filesystem and the pytest
subprocess) are modelled as explicit oracle parameters; every piece of
control flow that lives in the repository is translated directly from the
source.
-/

namespace Rora

/-- Text: a Python `str` as a list of characters. -/
abbrev Str := List Char

/-- Whitespace recognised by Python's `str.strip()`. -/
def pyIsSpace (c : Char) : Bool :=
  c == ' ' || c == '\t' || c == '\n' || c == '\r' || c == '\x0b' || c == '\x0c'

/-- Python `s.strip()`: drop leading and trailing whitespace. -/
def pyStrip (s : Str) : Str :=
  ((s.dropWhile pyIsSpace).reverse.dropWhile pyIsSpace).reverse

/-- `sub` occurs as a prefix of `s` (Boolean prefix test on char lists). -/
def strPrefix : Str → Str → Bool
  | [], _ => true
  | _ :: _, [] => false
  | a :: as, b :: bs => a == b && strPrefix as bs

/-- Scan helper for `pyFind`: least absolute index `≥ i` at which `sub`
occurs in the remaining text. -/
def pyFindAux (sub : Str) : Str → Nat → Option Nat
  | [], _ => none
  | c :: rest, i => if strPrefix sub (c :: rest) then some i else pyFindAux sub rest (i + 1)

/-- Python `s.find(sub, start)` for a non-empty `sub`, returning `none`
instead of `-1` when the substring is absent. -/
def pyFind (s sub : Str) (start : Nat) : Option Nat :=
  pyFindAux sub (s.drop start) start

/-- Python `s[a:b]` for `0 ≤ a, b` (empty when `b ≤ a`). -/
def pySlice (s : Str) (a b : Nat) : Str :=
  (s.drop a).take (b - a)

/-- `sub` occurs in `s` at index `i`. -/
def occursAtB (s sub : Str) (i : Nat) : Bool :=
  strPrefix sub (s.drop i)

/-- The opening marker of a python-tagged fenced block. -/
def pyTagStr : Str := "```python".data

/-- A fence marker. -/
def fenceStr : Str := "```".data

/-- `agent/graph.py: extract_code_from_response`.  Looks for a
```python-tagged fenced block first, then any fenced block, else returns
the trimmed raw text.  Each branch requires the closing fence to lie
strictly after the opening marker (`end > start` in the source); an
unclosed tagged fence falls through to the generic branch exactly as the
Python does. -/
def extract_code_from_response (content : Str) : Str :=
  let tagged : Option Str :=
    match pyFind content pyTagStr 0 with
    | none => none
    | some i =>
      let s := i + 9
      match pyFind content fenceStr s with
      | none => none
      | some e => if s < e then some (pyStrip (pySlice content s e)) else none
  match tagged with
  | some r => r
  | none =>
    let untagged : Option Str :=
      match pyFind content fenceStr 0 with
      | none => none
      | some i =>
        let s := i + 3
        match pyFind content fenceStr s with
        | none => none
        | some e => if s < e then some (pyStrip (pySlice content s e)) else none
    match untagged with
    | some r => r
    | none => pyStrip content

/-! ### Specification-side reading of the extraction contract (claim C8)

The claim describes the extraction as: the (first) language-tagged fenced
block's inner text trimmed, else the first fenced block's inner text
trimmed, else the whole input trimmed — one extraction attempt, no
scanning for further candidate blocks.  `firstOccurFrom` realises "the
first position at which a marker occurs" by searching `0, 1, 2, …`
explicitly, independently of the source's recursive scan. -/

/-- Least index `i ≥ lo` at which `sub` occurs in `s`, by exhaustive
search over all candidate positions. -/
def firstOccurFrom (s sub : Str) (lo : Nat) : Option Nat :=
  (List.range (s.length + 1)).find? (fun i => decide (lo ≤ i) && occursAtB s sub i)

/-- Claim-side extraction procedure, worded from the spec sentence. -/
def extract_spec (content : Str) : Str :=
  let tagged : Option Str :=
    match firstOccurFrom content pyTagStr 0 with
    | none => none
    | some i =>
      let s := i + 9
      match firstOccurFrom content fenceStr s with
      | none => none
      | some e => if s < e then some (pyStrip (pySlice content s e)) else none
  match tagged with
  | some r => r
  | none =>
    let untagged : Option Str :=
      match firstOccurFrom content fenceStr 0 with
      | none => none
      | some i =>
        let s := i + 3
        match firstOccurFrom content fenceStr s with
        | none => none
        | some e => if s < e then some (pyStrip (pySlice content s e)) else none
    match untagged with
    | some r => r
    | none => pyStrip content

lemma strPrefix_nil_right (sub : Str) (h : sub ≠ []) : strPrefix sub [] = false := by
  cases sub with
  | nil => exact absurd rfl h
  | cons a as => rfl

lemma drop_cons_sub (c : Char) (rest : Str) (j i : Nat) (h : i < j) :
    (c :: rest).drop (j - i) = rest.drop (j - (i + 1)) := by
  have hji : j - i = (j - (i + 1)) + 1 := by omega
  rw [hji]
  rfl

lemma pyFindAux_some_iff (sub : Str) (hsub : sub ≠ []) :
    ∀ (t : Str) (i k : Nat), pyFindAux sub t i = some k ↔
      (i ≤ k ∧ strPrefix sub (t.drop (k - i)) = true ∧
        ∀ j, i ≤ j → j < k → strPrefix sub (t.drop (j - i)) = false) := by
  intro t
  induction t with
  | nil =>
    intro i k
    simp only [pyFindAux]
    constructor
    · intro h; exact absurd h (by simp)
    · rintro ⟨-, h2, -⟩
      rw [List.drop_nil, strPrefix_nil_right sub hsub] at h2
      exact absurd h2 (by simp)
  | cons c rest ih =>
    intro i k
    simp only [pyFindAux]
    by_cases hp : strPrefix sub (c :: rest) = true
    · rw [if_pos hp]
      constructor
      · intro h
        injection h with h
        subst h
        refine ⟨le_refl _, ?_, ?_⟩
        · simpa using hp
        · intro j h1 h2; omega
      · rintro ⟨h1, -, h3⟩
        rcases Nat.lt_or_ge i k with hik | hik
        · have := h3 i (le_refl _) hik
          simp only [Nat.sub_self, List.drop_zero] at this
          rw [hp] at this; exact absurd this (by simp)
        · have h' : k = i := le_antisymm (by omega) h1
          subst h'; rfl
    · rw [if_neg hp]
      have hpf : strPrefix sub (c :: rest) = false := by
        cases hb : strPrefix sub (c :: rest) with
        | false => rfl
        | true => exact absurd hb hp
      rw [ih (i + 1) k]
      constructor
      · rintro ⟨h1, h2, h3⟩
        refine ⟨by omega, ?_, ?_⟩
        · rw [drop_cons_sub c rest k i (by omega)]; exact h2
        · intro j hj1 hj2
          rcases Nat.lt_or_ge i j with hij | hij
          · rw [drop_cons_sub c rest j i hij]
            exact h3 j (by omega) hj2
          · have h' : j = i := le_antisymm hij hj1
            subst h'
            simpa using hpf
      · rintro ⟨h1, h2, h3⟩
        have hik : i < k := by
          rcases Nat.lt_or_ge i k with h | h
          · exact h
          · have h' : k = i := le_antisymm h h1
            subst h'
            simp only [Nat.sub_self, List.drop_zero] at h2
            exact absurd h2 hp
        refine ⟨by omega, ?_, ?_⟩
        · rw [← drop_cons_sub c rest k i hik]; exact h2
        · intro j hj1 hj2
          rw [← drop_cons_sub c rest j i (by omega)]
          exact h3 j (by omega) hj2

lemma pyFind_some_iff (s sub : Str) (lo k : Nat) (hsub : sub ≠ []) :
    pyFind s sub lo = some k ↔
      (lo ≤ k ∧ occursAtB s sub k = true ∧
        ∀ j, lo ≤ j → j < k → occursAtB s sub j = false) := by
  unfold pyFind occursAtB
  rw [pyFindAux_some_iff sub hsub]
  constructor
  · rintro ⟨h1, h2, h3⟩
    refine ⟨h1, ?_, ?_⟩
    · rw [List.drop_drop] at h2
      have hh : lo + (k - lo) = k := by omega
      rw [hh] at h2; exact h2
    · intro j hj1 hj2
      have hd := h3 j hj1 hj2
      rw [List.drop_drop] at hd
      have hh : lo + (j - lo) = j := by omega
      rw [hh] at hd; exact hd
  · rintro ⟨h1, h2, h3⟩
    refine ⟨h1, ?_, ?_⟩
    · rw [List.drop_drop]
      have hh : lo + (k - lo) = k := by omega
      rw [hh]; exact h2
    · intro j hj1 hj2
      rw [List.drop_drop]
      have hh : lo + (j - lo) = j := by omega
      rw [hh]; exact h3 j hj1 hj2

lemma pyFind_none_iff (s sub : Str) (lo : Nat) (hsub : sub ≠ []) :
    pyFind s sub lo = none ↔ ∀ j, lo ≤ j → occursAtB s sub j = false := by
  constructor
  · intro h j hj
    by_contra hc
    have hocc : occursAtB s sub j = true := by
      cases hb : occursAtB s sub j with
      | false => exact absurd hb hc
      | true => rfl
    have hex : ∃ m, lo ≤ m ∧ occursAtB s sub m = true := ⟨j, hj, hocc⟩
    have hm := Nat.find_spec hex
    have hmin : ∀ j', lo ≤ j' → j' < Nat.find hex → occursAtB s sub j' = false := by
      intro j' hj' hlt
      have hnot := Nat.find_min hex hlt
      cases hb : occursAtB s sub j' with
      | false => rfl
      | true => exact absurd (⟨hj', hb⟩ : lo ≤ j' ∧ occursAtB s sub j' = true) hnot
    have heq : pyFind s sub lo = some (Nat.find hex) := by
      rw [pyFind_some_iff s sub lo _ hsub]
      exact ⟨hm.1, hm.2, hmin⟩
    rw [h] at heq
    exact absurd heq (by simp)
  · intro h
    cases hf : pyFind s sub lo with
    | none => rfl
    | some k =>
      rw [pyFind_some_iff s sub lo k hsub] at hf
      have hk := h k hf.1
      rw [hf.2.1] at hk
      exact absurd hk (by simp)

lemma occursAtB_length_lt (s sub : Str) (k : Nat) (hsub : sub ≠ [])
    (h : occursAtB s sub k = true) : k < s.length := by
  by_contra hc
  push_neg at hc
  unfold occursAtB at h
  rw [List.drop_eq_nil_of_le hc] at h
  rw [strPrefix_nil_right sub hsub] at h
  exact absurd h (by simp)

lemma findQ_append_some {α : Type} (p : α → Bool) (l₁ l₂ : List α) (a : α)
    (h : l₁.find? p = some a) : (l₁ ++ l₂).find? p = some a := by
  induction l₁ with
  | nil => simp [List.find?] at h
  | cons x xs ih =>
    simp only [List.cons_append, List.find?]
    cases hb : p x with
    | true =>
      simp only [List.find?, hb] at h
      simpa using h
    | false =>
      simp only [List.find?, hb] at h
      exact ih h

lemma findQ_append_none {α : Type} (p : α → Bool) (l₁ l₂ : List α)
    (h : l₁.find? p = none) : (l₁ ++ l₂).find? p = l₂.find? p := by
  induction l₁ with
  | nil => simp
  | cons x xs ih =>
    simp only [List.cons_append, List.find?]
    cases hb : p x with
    | true => simp [List.find?, hb] at h
    | false =>
      simp only [List.find?, hb] at h
      exact ih h

lemma findQ_none_iff {α : Type} (p : α → Bool) (l : List α) :
    l.find? p = none ↔ ∀ x ∈ l, p x = false := by
  induction l with
  | nil => simp
  | cons x xs ih =>
    simp only [List.find?]
    cases hb : p x with
    | true =>
      simp only [List.mem_cons]
      constructor
      · intro h; exact absurd h (by simp)
      · intro h
        have := h x (Or.inl rfl)
        rw [hb] at this
        exact absurd this (by simp)
    | false =>
      simp only [List.mem_cons]
      rw [ih]
      constructor
      · intro h y hy
        rcases hy with hy | hy
        · subst hy; exact hb
        · exact h y hy
      · intro h y hy
        exact h y (Or.inr hy)

lemma range_find?_some_iff (n : Nat) (p : Nat → Bool) : ∀ k,
    (List.range n).find? p = some k ↔ (k < n ∧ p k = true ∧ ∀ j < k, p j = false) := by
  induction n with
  | zero => intro k; simp [List.range_zero, List.find?]
  | succ m ih =>
    intro k
    rw [List.range_succ]
    cases hf : (List.range m).find? p with
    | some a =>
      rw [findQ_append_some p _ _ a hf]
      rw [ih a] at hf
      simp only [Option.some.injEq]
      constructor
      · intro h; subst h
        exact ⟨by omega, hf.2.1, hf.2.2⟩
      · rintro ⟨h1, h2, h3⟩
        rcases Nat.lt_trichotomy a k with h | h | h
        · have := h3 a h
          rw [hf.2.1] at this
          exact absurd this (by simp)
        · exact h
        · have := hf.2.2 k h
          rw [h2] at this
          exact absurd this (by simp)
    | none =>
      have hall : ∀ j < m, p j = false := by
        intro j hj
        exact (findQ_none_iff p _).mp hf j (by simpa using hj)
      rw [findQ_append_none p _ _ hf]
      simp only [List.find?]
      cases hb : p m with
      | true =>
        simp only [Option.some.injEq]
        constructor
        · intro h; subst h
          exact ⟨by omega, hb, hall⟩
        · rintro ⟨h1, h2, h3⟩
          rcases Nat.lt_trichotomy k m with h | h | h
          · have := hall k h
            rw [h2] at this
            exact absurd this (by simp)
          · exact h.symm
          · omega
      | false =>
        constructor
        · intro h; exact absurd h (by simp)
        · rintro ⟨h1, h2, h3⟩
          rcases Nat.lt_or_ge k m with h | h
          · have := hall k h
            rw [h2] at this
            exact absurd this (by simp)
          · have hkm : k = m := by omega
            subst hkm
            rw [hb] at h2
            exact absurd h2 (by simp)

/-- The claim-side first-occurrence search agrees with the code's scan. -/
lemma firstOccurFrom_eq_pyFind (s sub : Str) (lo : Nat) (hsub : sub ≠ []) :
    firstOccurFrom s sub lo = pyFind s sub lo := by
  cases hf : pyFind s sub lo with
  | none =>
    rw [pyFind_none_iff s sub lo hsub] at hf
    unfold firstOccurFrom
    cases hg : (List.range (s.length + 1)).find? (fun i => decide (lo ≤ i) && occursAtB s sub i) with
    | none => rfl
    | some k =>
      rw [range_find?_some_iff] at hg
      obtain ⟨-, h2, -⟩ := hg
      simp only [Bool.and_eq_true, decide_eq_true_eq] at h2
      have := hf k h2.1
      rw [h2.2] at this
      exact absurd this (by simp)
  | some k =>
    rw [pyFind_some_iff s sub lo k hsub] at hf
    unfold firstOccurFrom
    rw [range_find?_some_iff]
    refine ⟨by have := occursAtB_length_lt s sub k hsub hf.2.1; omega, ?_, ?_⟩
    · simp only [Bool.and_eq_true, decide_eq_true_eq]
      exact ⟨hf.1, hf.2.1⟩
    · intro j hj
      simp only [Bool.and_eq_false_iff]
      rcases Nat.lt_or_ge j lo with h | h
      · left; simpa using by omega
      · right
        have := hf.2.2 j h hj
        simp [this]

lemma firstOccurFrom_tag (s : Str) (lo : Nat) :
    firstOccurFrom s pyTagStr lo = pyFind s pyTagStr lo :=
  firstOccurFrom_eq_pyFind s pyTagStr lo (by decide)

lemma firstOccurFrom_fence (s : Str) (lo : Nat) :
    firstOccurFrom s fenceStr lo = pyFind s fenceStr lo :=
  firstOccurFrom_eq_pyFind s fenceStr lo (by decide)

/-! ## Generation pipeline (`agent/graph.py`)

The LangGraph state machine
`analyze_function → gather_context → generate_tests → validate_code` with
the conditional edge `should_retry : {retry ↦ generate_tests, done ↦ END}`.

Execution semantics of the graph engine, as modelled here:
* a node returns a partial state update; keys of the returned dict that are
  declared in `TestGenerationState` are merged into the state, keys that
  are not (such as the `"error"` key returned by `generate_tests_node` on a
  missing credential) are dropped, since the graph has no channel for them;
* conditional edges are evaluated on the merged state;
* the run raises a recursion error once the number of executed node steps
  exceeds the configured recursion limit (25 by default).

External collaborators are oracles: the language model is a function from
the invocation index to the raw response text, and the Python `ast` parser
is a function returning `none` on success or a `SynErr` describing the
raised `SyntaxError`. -/

/-- A Python `SyntaxError`: its `lineno`, its `msg`, and its `str(e)`
rendering. -/
structure SynErr where
  lineno : Nat
  msg : Str
  toText : Str
deriving DecidableEq

/-- The `ast.parse` oracle: `none` = parses, `some e` = raises `e`. -/
abbrev Parse := Str → Option SynErr

/-- The `validation_result` dict: `{"valid": bool}` plus an `"error"` key
present exactly when invalid. -/
structure ValidationResult where
  valid : Bool
  error : Option Str
deriving DecidableEq

/-- The fields of `TestGenerationState` that the generation loop reads or
writes.  `project_context` / `import_analysis` record only that the
corresponding node has populated them: their contents flow into the prompt
and are absorbed by the model oracle. -/
structure PState where
  generated_code : Option Str
  validation_result : Option ValidationResult
  validation_error : Option Str
  retry_count : Nat
  project_context : Bool
  import_analysis : Bool
deriving DecidableEq

/-- `initial_state` as built by `generate_tests_for_function`. -/
def pipelineInitialState : PState :=
  { generated_code := none
    validation_result := none
    validation_error := none
    retry_count := 0
    project_context := false
    import_analysis := false }

/-- `analyze_function_node`: writes `import_analysis`; never fails. -/
def analyze_function_node (s : PState) : PState :=
  { s with import_analysis := true }

/-- `gather_context_node`: writes `project_context` once. -/
def gather_context_node (s : PState) : PState :=
  { s with project_context := true }

/-- `generate_tests_node`.  With no API key it returns
`{"generated_code": "", "error": …}`; the `"error"` key has no channel in
`TestGenerationState`, so only `generated_code = ""` lands in the state and
no retry is consumed.  Otherwise it invokes the model (the `calls`-th
invocation) and extracts code from the raw response. -/
def generate_tests_node (apiKey : Str) (llm : Nat → Str) (s : PState) (calls : Nat) :
    PState × Nat :=
  if apiKey = [] then
    ({ s with generated_code := some [] }, calls)
  else
    ({ s with generated_code := some (extract_code_from_response (llm calls)) }, calls + 1)

/-- The message used for empty generated code. -/
def noCodeMsg : Str := "No code generated".data

/-- Python truthiness of the `generated_code` slot: `None` and `""` are
falsy. -/
def codeFalsy : Option Str → Bool
  | none => true
  | some c => c.isEmpty

/-- Decimal digit characters, for rendering `lineno` in the f-string. -/
def digitChar (n : Nat) : Char := Char.ofNat (48 + n)

/-- Decimal rendering of a `Nat` (model of Python `f"{n}"`), driven by an
explicit fuel always large enough. -/
def natDigitsAux : Nat → Nat → Str
  | 0, _ => []
  | f + 1, n => if n < 10 then [digitChar n] else natDigitsAux f (n / 10) ++ [digitChar (n % 10)]

/-- Decimal rendering of a `Nat`. -/
def natRepr (n : Nat) : Str := natDigitsAux (n + 1) n

/-- `f"Syntax error at line {e.lineno}: {e.msg}"`. -/
def synErrMsg (e : SynErr) : Str :=
  "Syntax error at line ".data ++ natRepr e.lineno ++ ": ".data ++ e.msg

/-- `validate_code_node`: empty code is invalid with `noCodeMsg` and does
not touch `retry_count`; a `SyntaxError` records `str(e)` in the
validation result, the formatted message in `validation_error`, and
increments `retry_count`. -/
def validate_code_node (parse : Parse) (s : PState) : PState :=
  if codeFalsy s.generated_code then
    { s with validation_result := some ⟨false, some noCodeMsg⟩
             validation_error := some noCodeMsg }
  else
    match parse (s.generated_code.getD []) with
    | none =>
      { s with validation_result := some ⟨true, none⟩
               validation_error := none }
    | some e =>
      { s with validation_result := some ⟨false, some e.toText⟩
               validation_error := some (synErrMsg e)
               retry_count := s.retry_count + 1 }

/-- `should_retry`: `validation.get("valid", False)` over the possibly
missing `validation_result`, then the `retry_count < 2` gate. -/
def should_retry (s : PState) : Str :=
  if (s.validation_result.getD ⟨false, none⟩).valid then "done".data
  else if s.retry_count < 2 then "retry".data
  else "done".data

/-- The four graph nodes. -/
inductive GNode
  | analyze
  | gather
  | generate
  | validate
deriving DecidableEq

/-- Execute one node.  Only `generate_tests` consumes model invocations. -/
def execNode (apiKey : Str) (llm : Nat → Str) (parse : Parse) :
    GNode → PState → Nat → PState × Nat
  | .analyze, s, calls => (analyze_function_node s, calls)
  | .gather, s, calls => (gather_context_node s, calls)
  | .generate, s, calls => generate_tests_node apiKey llm s calls
  | .validate, s, calls => (validate_code_node parse s, calls)

/-- The graph's edges: the linear chain plus the conditional edge mapping
`"retry" ↦ generate_tests` and `"done" ↦ END` (`none`). -/
def nextNode : GNode → PState → Option GNode
  | .analyze, _ => some .gather
  | .gather, _ => some .generate
  | .generate, _ => some .validate
  | .validate, s => if should_retry s = "retry".data then some .generate else none

/-- Outcome of `graph.invoke`: the final state, or a recursion stop with
the state reached when the step budget ran out. -/
inductive RunOutcome
  | ok (s : PState)
  | limitStop (s : PState)
deriving DecidableEq

/-- Run the graph from a node for at most `fuel` node steps, threading the
model-invocation count `calls` and the number of `generate_tests`
executions `gens`. -/
def runGraph (apiKey : Str) (llm : Nat → Str) (parse : Parse) :
    Nat → GNode → PState → Nat → Nat → RunOutcome × Nat × Nat
  | 0, _, s, calls, gens => (.limitStop s, calls, gens)
  | fuel + 1, n, s, calls, gens =>
    let r := execNode apiKey llm parse n s calls
    let gens' := if n = GNode.generate then gens + 1 else gens
    match nextNode n r.1 with
    | none => (.ok r.1, r.2, gens')
    | some n2 => runGraph apiKey llm parse fuel n2 r.1 r.2 gens'

/-- LangGraph's default recursion limit. -/
def defaultRecursionLimit : Nat := 25

/-- `graph.invoke(initial_state)` under a step limit. -/
def graph_invoke (apiKey : Str) (llm : Nat → Str) (parse : Parse) (limit : Nat) :
    RunOutcome × Nat × Nat :=
  runGraph apiKey llm parse limit .analyze pipelineInitialState 0 0

/-- Message of the recursion error surfaced by `str(e)` at the top level
(modelled text; the claims rely only on it being non-empty). -/
def recursionErrStr : Str :=
  "GraphRecursionError: Recursion limit reached without hitting a stop condition".data

/-- Default error used when `validation_error` is missing. -/
def failedDefaultMsg : Str := "Failed to generate valid test code".data

/-- The dictionary returned by `generate_tests_for_function`. -/
structure GenResult where
  test_code : Str
  test_function_name : Str
  imports : List Str
  error : Option Str
deriving DecidableEq

/-- Claim C8: the extraction procedure of `extract_code_from_response` is
the claim's one-pass policy — the (first) python-tagged fenced block's
inner text trimmed, else the first fenced block's inner text trimmed, else
the whole input trimmed — where each candidate block is located by first
occurrence of its opening marker and the nearest closing fence strictly
after it, with no scanning for further candidate blocks. -/
theorem C8_extraction_policy (content : Str) :
    extract_code_from_response content = extract_spec content := by
  unfold extract_code_from_response extract_spec
  simp only [firstOccurFrom_tag, firstOccurFrom_fence]

example : extract_code_from_response "here\n```python\ncode\n```\nbye".data = "code".data := by
  decide

example : extract_code_from_response "```js\nx\n```\n```python\ny\n```".data = "y".data := by
  decide

example : extract_code_from_response "no fences at all  ".data = "no fences at all".data := by
  decide

example : extract_code_from_response "a```\nbody\n``` b".data = "body".data := by
  decide

/-- `generate_tests_for_function`: runs the graph, and returns the failure
shape only when the final state is invalid *and* the generated code is
falsy, or when an exception (here: the recursion error) escaped
`graph.invoke`.  `extractImports` is the oracle for
`extract_imports_from_code` (an `ast` walk over the generated code, with
`[]` on any parse failure); `funcName` is `params.function_info.get("name")`. -/
def generate_tests_for_function (apiKey : Str) (llm : Nat → Str) (parse : Parse)
    (extractImports : Str → List Str) (funcName : Option Str) (limit : Nat) : GenResult :=
  match graph_invoke apiKey llm parse limit with
  | (.limitStop _, _, _) =>
    { test_code := [], test_function_name := [], imports := [], error := some recursionErrStr }
  | (.ok s, _, _) =>
    if (s.validation_result.getD ⟨false, none⟩).valid = false
        ∧ codeFalsy s.generated_code = true then
      { test_code := [], test_function_name := [], imports := []
        error := some (s.validation_error.getD failedDefaultMsg) }
    else
      { test_code := s.generated_code.getD []
        test_function_name := "test_".data ++ funcName.getD "unknown".data
        imports := extractImports (s.generated_code.getD [])
        error := none }

/-! ### Pipeline bookkeeping lemmas -/

/-- The state carried by a run outcome. -/
def outState : RunOutcome → PState
  | .ok s => s
  | .limitStop s => s

lemma generate_retry (apiKey : Str) (llm : Nat → Str) (s : PState) (calls : Nat) :
    (generate_tests_node apiKey llm s calls).1.retry_count = s.retry_count := by
  unfold generate_tests_node
  split <;> rfl

lemma validate_retry_le (parse : Parse) (s : PState) :
    (validate_code_node parse s).retry_count ≤ s.retry_count + 1 := by
  unfold validate_code_node
  split
  · simp
  · cases parse (s.generated_code.getD []) <;> simp

lemma validate_retry_ge (parse : Parse) (s : PState) :
    s.retry_count ≤ (validate_code_node parse s).retry_count := by
  unfold validate_code_node
  split
  · simp
  · cases parse (s.generated_code.getD []) <;> simp

lemma execNode_retry_mono (apiKey : Str) (llm : Nat → Str) (parse : Parse)
    (n : GNode) (s : PState) (calls : Nat) :
    s.retry_count ≤ (execNode apiKey llm parse n s calls).1.retry_count := by
  cases n with
  | analyze => exact le_refl _
  | gather => exact le_refl _
  | generate => rw [execNode, generate_retry]
  | validate => exact validate_retry_ge parse s

lemma execNode_retry_le (apiKey : Str) (llm : Nat → Str) (parse : Parse)
    (n : GNode) (s : PState) (calls : Nat) (h : s.retry_count ≤ 1) :
    (execNode apiKey llm parse n s calls).1.retry_count ≤ 2 := by
  cases n with
  | analyze => simpa [execNode, analyze_function_node] using by omega
  | gather => simpa [execNode, gather_context_node] using by omega
  | generate => rw [execNode, generate_retry]; omega
  | validate =>
    have := validate_retry_le parse s
    simp only [execNode]
    omega

lemma should_retry_retry_le (s : PState) (h : should_retry s = "retry".data) :
    s.retry_count ≤ 1 := by
  unfold should_retry at h
  by_cases hv : (s.validation_result.getD ⟨false, none⟩).valid = true
  · rw [if_pos hv] at h
    exact absurd h (by decide)
  · rw [if_neg hv] at h
    by_cases hr : s.retry_count < 2
    · omega
    · rw [if_neg hr] at h
      exact absurd h (by decide)

lemma runGraph_retry_le (apiKey : Str) (llm : Nat → Str) (parse : Parse) :
    ∀ (fuel : Nat) (n : GNode) (s : PState) (calls gens : Nat), s.retry_count ≤ 1 →
      (outState (runGraph apiKey llm parse fuel n s calls gens).1).retry_count ≤ 2 := by
  intro fuel
  induction fuel with
  | zero =>
    intro n s calls gens h
    simp only [runGraph, outState]
    omega
  | succ f ih =>
    intro n s calls gens h
    simp only [runGraph]
    cases hn : nextNode n (execNode apiKey llm parse n s calls).1 with
    | none =>
      simp only [outState]
      exact execNode_retry_le apiKey llm parse n s calls h
    | some n2 =>
      simp only []
      apply ih
      cases n with
      | analyze => simpa [execNode, analyze_function_node] using h
      | gather => simpa [execNode, gather_context_node] using h
      | generate => rw [execNode, generate_retry]; exact h
      | validate =>
        simp only [nextNode] at hn
        split at hn
        · next hr => exact should_retry_retry_le _ hr
        · exact absurd hn (by simp)

/-- Non-emptiness invariant for `validation_error`. -/
def veOk (s : PState) : Prop := ∀ m, s.validation_error = some m → m ≠ []

lemma synErrMsg_ne_nil (e : SynErr) : synErrMsg e ≠ [] := by
  intro h
  have hl := congrArg List.length h
  unfold synErrMsg at hl
  have h21 : ("Syntax error at line ".data).length = 21 := rfl
  simp only [List.length_append, List.length_nil, h21] at hl
  omega

lemma validate_veOk (parse : Parse) (s : PState) (_h : veOk s) :
    veOk (validate_code_node parse s) := by
  unfold validate_code_node
  split
  · intro m hm
    simp only at hm
    injection hm with hm
    subst hm
    decide
  · cases hp : parse (s.generated_code.getD []) with
    | none => intro m hm; simp at hm
    | some e =>
      intro m hm
      simp only at hm
      injection hm with hm
      subst hm
      exact synErrMsg_ne_nil e

lemma execNode_veOk (apiKey : Str) (llm : Nat → Str) (parse : Parse)
    (n : GNode) (s : PState) (calls : Nat) (h : veOk s) :
    veOk (execNode apiKey llm parse n s calls).1 := by
  cases n with
  | analyze => exact h
  | gather => exact h
  | generate =>
    simp only [execNode]
    unfold generate_tests_node
    split
    · exact h
    · exact h
  | validate => exact validate_veOk parse s h

lemma runGraph_veOk (apiKey : Str) (llm : Nat → Str) (parse : Parse) :
    ∀ (fuel : Nat) (n : GNode) (s : PState) (calls gens : Nat), veOk s →
      veOk (outState (runGraph apiKey llm parse fuel n s calls gens).1) := by
  intro fuel
  induction fuel with
  | zero =>
    intro n s calls gens h
    exact h
  | succ f ih =>
    intro n s calls gens h
    simp only [runGraph]
    cases hn : nextNode n (execNode apiKey llm parse n s calls).1 with
    | none =>
      simp only [outState]
      exact execNode_veOk apiKey llm parse n s calls h
    | some n2 =>
      simp only []
      exact ih n2 _ _ _ (execNode_veOk apiKey llm parse n s calls h)

/-! ### Concrete oracles used by witnesses and counterexamples -/

/-- A parser oracle that rejects exactly the one-character text `(`. -/
def parseParen : Parse := fun c =>
  if c = "(".data then some ⟨1, "invalid syntax".data, "invalid syntax (line 1)".data⟩
  else none

/-- A model oracle that always answers `(` (non-empty, syntactically
invalid). -/
def llmParen : Nat → Str := fun _ => "(".data

/-! ### Claims C1, C2, C4, C5 -/

/-- Claim C1, counterexample: with every model invocation returning the
non-empty syntactically invalid text `(`, the pipeline exhausts its retry
budget, yet `generate_tests_for_function` returns the invalid code with an
empty error instead of the claimed non-empty error with empty fields. -/
theorem C1_counterexample :
    (generate_tests_for_function "k".data llmParen parseParen (fun _ => [])
      (some "f".data) defaultRecursionLimit).error = none ∧
    (generate_tests_for_function "k".data llmParen parseParen (fun _ => [])
      (some "f".data) defaultRecursionLimit).test_code = "(".data := by
  decide

/-- Claim C1, amended: whenever `generate_tests_for_function` reports an
error at all — which happens exactly when the graph run raises (recursion
stop), or ends invalid with falsy code — the error string is non-empty and
`test_code`, `test_function_name` and `imports` are all empty.  Retry
exhaustion on non-empty invalid code instead returns the code with no
error. -/
theorem C1_amended (apiKey : Str) (llm : Nat → Str) (parse : Parse)
    (extractImports : Str → List Str) (funcName : Option Str) (limit : Nat) (m : Str)
    (h : (generate_tests_for_function apiKey llm parse extractImports funcName limit).error
      = some m) :
    (generate_tests_for_function apiKey llm parse extractImports funcName limit).test_code = []
    ∧ (generate_tests_for_function apiKey llm parse extractImports funcName
        limit).test_function_name = []
    ∧ (generate_tests_for_function apiKey llm parse extractImports funcName limit).imports = []
    ∧ m ≠ [] := by
  have hve : veOk (outState (graph_invoke apiKey llm parse limit).1) :=
    runGraph_veOk apiKey llm parse limit .analyze pipelineInitialState 0 0
      (by intro x hx; simp [pipelineInitialState] at hx)
  unfold generate_tests_for_function at h ⊢
  rcases hg : graph_invoke apiKey llm parse limit with ⟨out, c1, c2⟩
  rw [hg] at hve h
  cases out with
  | limitStop s =>
    simp only at h ⊢
    injection h with h
    refine ⟨trivial, trivial, trivial, ?_⟩
    subst h
    decide
  | ok s =>
    simp only [outState] at hve
    simp only at h ⊢
    by_cases hc : (s.validation_result.getD ⟨false, none⟩).valid = false
        ∧ codeFalsy s.generated_code = true
    · rw [if_pos hc] at h ⊢
      simp only at h ⊢
      injection h with h
      refine ⟨trivial, trivial, trivial, ?_⟩
      subst h
      cases hv : s.validation_error with
      | none =>
        simp only [hv, Option.getD_none]
        decide
      | some m2 =>
        simp only [hv, Option.getD_some]
        exact hve m2 hv
    · rw [if_neg hc] at h
      exact absurd h (by simp)

/-- Claim C1, amended, witness: a concrete failing run (no credential)
reaches the error shape. -/
theorem C1_amended_witness :
    (generate_tests_for_function [] llmParen parseParen (fun _ => []) (some "f".data)
      defaultRecursionLimit).error = some recursionErrStr
    ∧ (generate_tests_for_function [] llmParen parseParen (fun _ => []) (some "f".data)
        defaultRecursionLimit).test_code = []
    ∧ (generate_tests_for_function [] llmParen parseParen (fun _ => []) (some "f".data)
        defaultRecursionLimit).test_function_name = []
    ∧ (generate_tests_for_function [] llmParen parseParen (fun _ => []) (some "f".data)
        defaultRecursionLimit).imports = []
    ∧ recursionErrStr ≠ [] := by
  have h := C1_amended [] llmParen parseParen (fun _ => []) (some "f".data)
    defaultRecursionLimit recursionErrStr (by decide)
  exact ⟨by decide, h.1, h.2.1, h.2.2.1, h.2.2.2⟩

/-- Claim C2: with no model credential the code does *not* terminate after
a single pass.  `generate_tests_node` short-circuits with
`generated_code = ""` (its `"error"` key has no state channel), the
validation marks the empty code invalid without touching `retry_count`,
and `should_retry` keeps answering `"retry"` because `retry_count`
stays `0 < 2` — so the generate step runs 12 times at the default
recursion limit 25 before the run raises, and the returned error is the
recursion error, not the configuration message. -/
theorem C2_no_credential_loops :
    (graph_invoke [] llmParen parseParen defaultRecursionLimit).2.2 = 12
    ∧ (graph_invoke [] llmParen parseParen defaultRecursionLimit).2.1 = 0
    ∧ (graph_invoke [] llmParen parseParen defaultRecursionLimit).1
        = .limitStop ⟨some [], some ⟨false, some noCodeMsg⟩, some noCodeMsg, 0, true, true⟩
    ∧ (generate_tests_for_function [] llmParen parseParen (fun _ => []) (some "f".data)
        defaultRecursionLimit).error = some recursionErrStr
    ∧ recursionErrStr ≠ []
    ∧ (12 : Nat) ≠ 1 := by
  decide

/-- A pipeline state holding empty generated code. -/
def sEmptyCode : PState := { pipelineInitialState with generated_code := some [] }

/-- Claim C4, counterexample: validating empty generated code reports the
message `"No code generated"`, not the claimed literal
`"no code generated"` (the counter is indeed untouched). -/
theorem C4_counterexample :
    (validate_code_node parseParen sEmptyCode).validation_error = some "No code generated".data
    ∧ (validate_code_node parseParen sEmptyCode).validation_error
        ≠ some "no code generated".data
    ∧ (validate_code_node parseParen sEmptyCode).retry_count = sEmptyCode.retry_count := by
  decide

/-- Claim C4, amended (message capitalised as in the code): within a
pipeline run the retry counter starts at 0, is non-decreasing under every
node, never exceeds 2 (at any node step under the run's entry invariant,
and in the state carried by the run's outcome), and a validation of empty
generated code reports invalid with message `"No code generated"` without
incrementing the counter. -/
theorem C4_amended :
    pipelineInitialState.retry_count = 0
    ∧ (∀ (apiKey : Str) (llm : Nat → Str) (parse : Parse) (n : GNode) (s : PState) (calls : Nat),
        s.retry_count ≤ (execNode apiKey llm parse n s calls).1.retry_count)
    ∧ (∀ (apiKey : Str) (llm : Nat → Str) (parse : Parse) (n : GNode) (s : PState) (calls : Nat),
        s.retry_count ≤ 1 → (execNode apiKey llm parse n s calls).1.retry_count ≤ 2)
    ∧ (∀ s : PState, should_retry s = "retry".data → s.retry_count ≤ 1)
    ∧ (∀ (apiKey : Str) (llm : Nat → Str) (parse : Parse) (limit : Nat),
        (outState (graph_invoke apiKey llm parse limit).1).retry_count ≤ 2)
    ∧ (∀ (parse : Parse) (s : PState), codeFalsy s.generated_code = true →
        (validate_code_node parse s).retry_count = s.retry_count
        ∧ (validate_code_node parse s).validation_result = some ⟨false, some noCodeMsg⟩
        ∧ (validate_code_node parse s).validation_error = some noCodeMsg) := by
  refine ⟨rfl, ?_, ?_, ?_, ?_, ?_⟩
  · intro apiKey llm parse n s calls
    exact execNode_retry_mono apiKey llm parse n s calls
  · intro apiKey llm parse n s calls h
    exact execNode_retry_le apiKey llm parse n s calls h
  · intro s h
    exact should_retry_retry_le s h
  · intro apiKey llm parse limit
    exact runGraph_retry_le apiKey llm parse limit .analyze pipelineInitialState 0 0 (by decide)
  · intro parse s h
    unfold validate_code_node
    simp [h]

/-- Claim C4, amended, witness: the invariant facts instantiated on a
concrete empty-code state and a concrete bounded run. -/
theorem C4_amended_witness :
    pipelineInitialState.retry_count = 0
    ∧ sEmptyCode.retry_count
        ≤ (execNode "k".data llmParen parseParen .validate sEmptyCode 0).1.retry_count
    ∧ (execNode "k".data llmParen parseParen .validate sEmptyCode 0).1.retry_count ≤ 2
    ∧ (validate_code_node parseParen sEmptyCode).retry_count ≤ 1
    ∧ (outState (graph_invoke "k".data llmParen parseParen defaultRecursionLimit).1).retry_count
        ≤ 2
    ∧ (validate_code_node parseParen sEmptyCode).retry_count = sEmptyCode.retry_count
    ∧ (validate_code_node parseParen sEmptyCode).validation_result
        = some ⟨false, some noCodeMsg⟩ := by
  obtain ⟨h0, hmono, hle, hretry, hrun, hempty⟩ := C4_amended
  refine ⟨h0, hmono "k".data llmParen parseParen .validate sEmptyCode 0, ?_, ?_, ?_, ?_, ?_⟩
  · exact hle "k".data llmParen parseParen .validate sEmptyCode 0 (by decide)
  · exact hretry (validate_code_node parseParen sEmptyCode) (by decide)
  · exact hrun "k".data llmParen parseParen defaultRecursionLimit
  · exact (hempty parseParen sEmptyCode (by decide)).1
  · exact (hempty parseParen sEmptyCode (by decide)).2.1

/-- Claim C5, counterexample: with every model invocation returning the
non-empty invalid text `(`, the run makes 2 model invocations (not 3),
enters the generate node twice (one retry, not two), and the returned
result does not surface the last validation error — its error is `none`. -/
theorem C5_counterexample :
    (graph_invoke "k".data llmParen parseParen defaultRecursionLimit).2.1 = 2
    ∧ (graph_invoke "k".data llmParen parseParen defaultRecursionLimit).2.2 = 2
    ∧ (2 : Nat) ≠ 3
    ∧ (generate_tests_for_function "k".data llmParen parseParen (fun _ => [])
        (some "f".data) defaultRecursionLimit).error = none := by
  decide

/-- Claim C5, amended: when the model returns non-empty syntactically
invalid code on every invocation, the pipeline performs exactly one retry
— 2 total model invocations — before the routing terminates; the final
state records the last validation error (from the second invocation), but
the returned result carries the last invalid code with no error. -/
theorem C5_amended (apiKey : Str) (llm : Nat → Str) (parse : Parse)
    (extractImports : Str → List Str) (funcName : Option Str) (limit : Nat)
    (hk : apiKey ≠ []) (hl : 6 ≤ limit)
    (hcode : ∀ k, extract_code_from_response (llm k) ≠ [])
    (hinv : ∀ k, ∃ e, parse (extract_code_from_response (llm k)) = some e) :
    ∃ e1, parse (extract_code_from_response (llm 1)) = some e1
    ∧ graph_invoke apiKey llm parse limit =
        (.ok { generated_code := some (extract_code_from_response (llm 1))
               validation_result := some ⟨false, some e1.toText⟩
               validation_error := some (synErrMsg e1)
               retry_count := 2
               project_context := true
               import_analysis := true }, 2, 2)
    ∧ generate_tests_for_function apiKey llm parse extractImports funcName limit =
        { test_code := extract_code_from_response (llm 1)
          test_function_name := "test_".data ++ funcName.getD "unknown".data
          imports := extractImports (extract_code_from_response (llm 1))
          error := none } := by
  obtain ⟨e0, he0⟩ := hinv 0
  obtain ⟨e1, he1⟩ := hinv 1
  have hc0 : (extract_code_from_response (llm 0)).isEmpty = false := by
    cases hx : extract_code_from_response (llm 0) with
    | nil => exact absurd hx (hcode 0)
    | cons a as => rfl
  have hc1 : (extract_code_from_response (llm 1)).isEmpty = false := by
    cases hx : extract_code_from_response (llm 1) with
    | nil => exact absurd hx (hcode 1)
    | cons a as => rfl
  obtain ⟨k, rfl⟩ : ∃ k, limit = k + 6 := ⟨limit - 6, by omega⟩
  have hgi : graph_invoke apiKey llm parse (k + 6) =
      (.ok { generated_code := some (extract_code_from_response (llm 1))
             validation_result := some ⟨false, some e1.toText⟩
             validation_error := some (synErrMsg e1)
             retry_count := 2
             project_context := true
             import_analysis := true }, 2, 2) := by
    unfold graph_invoke
    simp [runGraph, execNode, analyze_function_node, gather_context_node,
      generate_tests_node, validate_code_node, nextNode, should_retry,
      pipelineInitialState, codeFalsy, he0, he1, hc0, hc1, hk]
  refine ⟨e1, he1, hgi, ?_⟩
  unfold generate_tests_for_function
  rw [hgi]
  have hcond : ¬ (((some (ValidationResult.mk false (some e1.toText))).getD
      ⟨false, none⟩).valid = false
      ∧ codeFalsy (some (extract_code_from_response (llm 1))) = true) := by
    simp [codeFalsy, hc1]
  simp only []
  rw [if_neg hcond]
  rfl

/-- Claim C5, amended, witness: the 2-invocation run on concrete
always-invalid oracles. -/
theorem C5_amended_witness :
    graph_invoke "k".data llmParen parseParen 25 =
      (.ok { generated_code := some "(".data
             validation_result := some ⟨false, some "invalid syntax (line 1)".data⟩
             validation_error :=
               some (synErrMsg ⟨1, "invalid syntax".data, "invalid syntax (line 1)".data⟩)
             retry_count := 2
             project_context := true
             import_analysis := true }, 2, 2)
    ∧ generate_tests_for_function "k".data llmParen parseParen (fun _ => [])
        (some "f".data) 25 =
      { test_code := "(".data
        test_function_name := "test_f".data
        imports := []
        error := none } := by
  obtain ⟨e1, he1, hgi, hgen⟩ := C5_amended "k".data llmParen parseParen (fun _ => [])
    (some "f".data) 25 (by decide) (by omega)
    (fun k => by
      show extract_code_from_response "(".data ≠ []
      decide)
    (fun k => ⟨⟨1, "invalid syntax".data, "invalid syntax (line 1)".data⟩, by
      show parseParen (extract_code_from_response "(".data)
        = some ⟨1, "invalid syntax".data, "invalid syntax (line 1)".data⟩
      decide⟩)
  have hpe : parseParen (extract_code_from_response (llmParen 1)) =
      some ⟨1, "invalid syntax".data, "invalid syntax (line 1)".data⟩ := by decide
  rw [hpe] at he1
  injection he1 with he1
  subst he1
  have hx : extract_code_from_response (llmParen 1) = "(".data := by decide
  rw [hx] at hgi hgen
  exact ⟨hgi, by simpa using hgen⟩

/-! ## Test-execution harness (`executor/pytest_runner.py`)

`run_pytest` with the filesystem and the pytest child process as oracles.
The model returns, alongside the `RunResult`, the list of argv vectors it
spawned, so that "no subprocess is spawned" is a provable statement. -/

/-- One normalized test outcome as built by `parse_pytest_output`. -/
structure TestOutcome where
  name : Str
  outcome : Str
  duration : Nat
  message : Option Str
deriving DecidableEq

/-- The aggregate result dictionary of `run_pytest`. -/
structure RunResult where
  outcomes : List TestOutcome
  total : Nat
  passed : Nat
  failed : Nat
  error : Option Str
deriving DecidableEq

/-- Behaviour of the spawned pytest child process (oracle). -/
inductive SpawnOutcome
  | completed (stdout stderr : Str) (returncode : Int)
  | timedOut
  | raised (e : Str)

/-- Python `str.splitlines` restricted to `\n` separators (the harness
strips each line, so `\r` line ends are absorbed by the strip). -/
def splitlinesAux : Str → Str → List Str
  | [], cur => if cur = [] then [] else [cur.reverse]
  | c :: rest, cur =>
    if c = '\n' then cur.reverse :: splitlinesAux rest []
    else splitlinesAux rest (c :: cur)

/-- Python `s.splitlines()`. -/
def pySplitlines (s : Str) : List Str := splitlinesAux s []

/-- Python `sub in s`. -/
def pyContains (s sub : Str) : Bool := (pyFind s sub 0).isSome

/-- Python `s.split(sub, 1)[0]`: the text before the first occurrence. -/
def beforeFirst (s sub : Str) : Str :=
  match pyFind s sub 0 with
  | none => s
  | some i => pySlice s 0 i

/-- Python `s.startswith(p)`. -/
def startswithB (s p : Str) : Bool := strPrefix p s

/-- Python `s.endswith(p)`. -/
def endswithB (s p : Str) : Bool := strPrefix p.reverse s.reverse

/-- `"\n".join`. -/
def joinNL : List Str → Str
  | [] => []
  | [l] => l
  | l :: rest => l ++ '\n' :: joinNL rest

/-- Scan of `extract_failure_message`: skip until the marker line naming
the test, collect until a `_…_` or `=…=` divider line. -/
def efmAux (test_name : Str) : List Str → Bool → List Str
  | [], _ => []
  | line :: rest, inFailure =>
    if pyContains line test_name
        && (pyContains line "FAILED".data || pyContains line "ERROR".data) then
      efmAux test_name rest true
    else if inFailure then
      if startswithB line "_".data && endswithB line "_".data then []
      else if startswithB line "=".data && endswithB line "=".data then []
      else line :: efmAux test_name rest inFailure
    else efmAux test_name rest inFailure

/-- `extract_failure_message`: best-effort failure excerpt, capped at 10
lines. -/
def extract_failure_message (output : Str) (test_name : Str) : Str :=
  joinNL ((efmAux test_name (pySplitlines output) false).take 10)

/-- Classify one (stripped) line of pytest verbose output. -/
def classifyLine (stdout : Str) (line : Str) : Option TestOutcome :=
  let l := pyStrip line
  if pyContains l " PASSED".data then
    some ⟨pyStrip (beforeFirst l " PASSED".data), "passed".data, 0, none⟩
  else if pyContains l " FAILED".data then
    some ⟨pyStrip (beforeFirst l " FAILED".data), "failed".data, 0,
      some (extract_failure_message stdout (pyStrip (beforeFirst l " FAILED".data)))⟩
  else if pyContains l " ERROR".data then
    some ⟨pyStrip (beforeFirst l " ERROR".data), "error".data, 0,
      some (extract_failure_message stdout (pyStrip (beforeFirst l " ERROR".data)))⟩
  else if pyContains l " SKIPPED".data then
    some ⟨pyStrip (beforeFirst l " SKIPPED".data), "skipped".data, 0, none⟩
  else none

/-- The line scan of `parse_pytest_output`: outcomes in order plus the
`passed` and `failed` counters (ERROR counts as failed). -/
def scanLines (stdout : Str) : List Str → List TestOutcome × Nat × Nat
  | [] => ([], 0, 0)
  | line :: rest =>
    let r := scanLines stdout rest
    match classifyLine stdout line with
    | none => r
    | some o =>
      (o :: r.1,
        (if o.outcome = "passed".data then r.2.1 + 1 else r.2.1),
        (if o.outcome = "failed".data ∨ o.outcome = "error".data then r.2.2 + 1 else r.2.2))

/-- `parse_pytest_output`: the text-scraping fallback normalizer. -/
def parse_pytest_output (stdout stderr : Str) (returncode : Int) : RunResult :=
  let r := scanLines stdout (pySplitlines stdout)
  if r.1 = [] ∧ returncode ≠ 0 then
    { outcomes := [], total := 0, passed := 0, failed := 0
      error := some (if (if stderr ≠ [] then stderr else stdout) ≠ []
        then (if stderr ≠ [] then stderr else stdout).take 500
        else "Unknown error".data) }
  else
    { outcomes := r.1, total := r.1.length, passed := r.2.1, failed := r.2.2, error := none }

/-- `run_pytest`: precondition check on the path, then the subprocess. -/
def run_pytest (fsExists : Str → Bool) (sysExecutable : Str)
    (spawn : List Str → SpawnOutcome) (test_path : Str) (test_function : Option Str) :
    RunResult × List (List Str) :=
  if fsExists test_path = false then
    ({ outcomes := [], total := 0, passed := 0, failed := 0
       error := some ("Test path not found: ".data ++ test_path) }, [])
  else
    let cmd := [sysExecutable, "-m".data, "pytest".data, test_path, "--json-report".data,
        "--json-report-file=-".data, "-v".data, "--tb=short".data]
      ++ (match test_function with
        | some f => ["-k=".data ++ f]
        | none => [])
    match spawn cmd with
    | .completed out err rc => (parse_pytest_output out err rc, [cmd])
    | .timedOut =>
      ({ outcomes := [], total := 0, passed := 0, failed := 0
         error := some "Test execution timed out after 60 seconds".data }, [cmd])
    | .raised e =>
      ({ outcomes := [], total := 0, passed := 0, failed := 0, error := some e }, [cmd])

/-! ## Protocol server (`server.py`)

Standard input is a `Str`; `read_message` consumes a prefix and yields the
decoded message, an exception (logged by the main loop), or the `None`
that ends the loop.  The JSON codec is an oracle. -/

/-- Result of a Python call that can raise: value or exception text. -/
inductive PyResult (α : Type)
  | ok (a : α)
  | exn (e : Str)
deriving DecidableEq

/-- The fields of `GenerateTestParams` that the result shape depends on:
`function_info.get("name")`.  The remaining fields reach only the prompt
and are absorbed by the model oracle. -/
structure GenParams where
  func_name : Option Str
deriving DecidableEq

/-- The `params` object of a decoded request, as consumed by
`handle_request`: the `.get` fields of each handler, and the outcome of
the `GenerateTestParams(**params)` pydantic construction. -/
structure Params where
  file_path : Option Str
  code : Option Str
  test_path : Option Str
  test_function : Option Str
  gen : PyResult GenParams
deriving DecidableEq

/-- A decoded inbound message after the `.get` defaults of `main`:
`method` (default `""`), `params`, `id` (default `None`). -/
structure RpcMsg where
  method : Str
  params : Params
  id : Option Int
deriving DecidableEq

/-- What one `read_message` call does: return `None` (EOF or zero/absent
Content-Length), raise (bad Content-Length integer or body decode
failure), or produce a message. -/
inductive ReadOutcome
  | eofStop
  | raised (isJsonError : Bool) (e : Str)
  | msg (m : RpcMsg)
deriving DecidableEq

/-- Python `sys.stdin.readline()`: up to and including the next newline. -/
def pyReadline : Str → Str × Str
  | [] => ([], [])
  | c :: rest =>
    if c = '\n' then (['\n'], rest)
    else
      let r := pyReadline rest
      (c :: r.1, r.2)

/-- Python `line.split(":", 1)` when `":" in line`. -/
def splitColon (l : Str) : Option (Str × Str) :=
  match pyFind l ":".data 0 with
  | none => none
  | some i => some (pySlice l 0 i, pySlice l (i + 1) l.length)

/-- Value of a decimal digit character. -/
def digitVal (c : Char) : Nat := c.toNat - 48

/-- Value of a non-empty all-digit string. -/
def digitsVal (ds : Str) : Option Nat :=
  if ds ≠ [] ∧ ds.all Char.isDigit then
    some (ds.foldl (fun a c => a * 10 + digitVal c) 0)
  else none

/-- Python `int(s)` (without PEP 515 underscore grouping, which no caller
here produces): optional surrounding whitespace, optional sign, digits;
`none` models the `ValueError`. -/
def pyInt (s : Str) : Option Int :=
  if (pyStrip s).take 1 = ['-'] then (digitsVal ((pyStrip s).drop 1)).map (fun n => -(n : Int))
  else if (pyStrip s).take 1 = ['+'] then
    (digitsVal ((pyStrip s).drop 1)).map (fun n => (n : Int))
  else (digitsVal (pyStrip s)).map (fun n => (n : Int))

/-- Python `sys.stdin.read(n)`: a negative count reads to EOF. -/
def pyRead (n : Int) (s : Str) : Str × Str :=
  if n < 0 then (s, []) else (s.take n.toNat, s.drop n.toNat)

/-- The header loop of `read_message`: read lines until a blank one,
collecting `key: value` pairs (later assignments shadow earlier ones via
the prepend), `none` on EOF.  The fuel is always `≥ length + 1`, which the
loop can never exhaust since each iteration consumes at least one
character. -/
def readHeaders : Nat → Str → List (Str × Str) → Option (List (Str × Str) × Str)
  | 0, _, _ => none
  | fuel + 1, stdin, acc =>
    let lr := pyReadline stdin
    if lr.1 = [] then none
    else
      let ls := pyStrip lr.1
      if ls = [] then some (acc, lr.2)
      else
        match splitColon ls with
        | none => readHeaders fuel lr.2 acc
        | some kv => readHeaders fuel lr.2 ((pyStrip kv.1, pyStrip kv.2) :: acc)

/-- `headers[key]` with dict-overwrite semantics (first hit in the
prepended association list). -/
def lookupHeader : List (Str × Str) → Str → Option Str
  | [], _ => none
  | kv :: rest, k => if kv.1 = k then some kv.2 else lookupHeader rest k

/-- `read_message`: headers, `Content-Length`, body, decode.  Returns the
outcome and the unconsumed remainder of standard input. -/
def read_message (jloads : Str → PyResult RpcMsg) (stdin : Str) : ReadOutcome × Str :=
  match readHeaders (stdin.length + 1) stdin [] with
  | none => (.eofStop, [])
  | some hr =>
    match lookupHeader hr.1 "Content-Length".data with
    | none => (.eofStop, hr.2)
    | some v =>
      match pyInt v with
      | none => (.raised false ("invalid literal for int() with base 10: ".data ++ v), hr.2)
      | some n =>
        if n = 0 then (.eofStop, hr.2)
        else
          let cr := pyRead n hr.2
          match jloads cr.1 with
          | .ok m => (.msg m, cr.2)
          | .exn e => (.raised true e, cr.2)

/-- `validate_python_syntax`: `{"valid": True}` on success, else
`{"valid": False, "error": str(e.msg), "line": e.lineno}`. -/
structure SynCheck where
  valid : Bool
  error : Option Str
  line : Option Nat
deriving DecidableEq

/-- `validate_python_syntax` over the `ast.parse` oracle. -/
def validate_python_syntax_model (parse : Parse) (code : Str) : SynCheck :=
  match parse code with
  | none => { valid := true, error := none, line := none }
  | some e => { valid := false, error := some e.msg, line := some e.lineno }

/-- The result payload of a response, by handler. -/
inductive RVal
  | parsed (v : Str)
  | genRes (r : GenResult)
  | runRes (r : RunResult)
  | valRes (r : SynCheck)
deriving DecidableEq

/-- One response envelope: `{"jsonrpc": "2.0", "id": id}` plus either a
`result` or an `error` member. -/
structure Response where
  id : Option Int
  result : Option RVal
  error : Option (Int × Str)
deriving DecidableEq

/-- A success response. -/
def mkOk (id : Option Int) (v : RVal) : Response :=
  { id := id, result := some v, error := none }

/-- An error response. -/
def mkErr (id : Option Int) (c : Int) (m : Str) : Response :=
  { id := id, result := none, error := some (c, m) }

/-- The external collaborators of the server. -/
structure SEnv where
  jloads : Str → PyResult RpcMsg
  parseFileOracle : Str → PyResult Str
  apiKey : Str
  llm : Nat → Str
  parse : Parse
  extractImports : Str → List Str
  fsExists : Str → Bool
  sysExecutable : Str
  spawn : List Str → SpawnOutcome

/-- `handle_request`: dispatch on `method`; every branch — including the
unknown-method branch and the exception handler — emits exactly one
response carrying the request's id. -/
def handle_request (env : SEnv) (method : Str) (params : Params) (id : Option Int) :
    List Response :=
  if method = "parse_file".data then
    match env.parseFileOracle (params.file_path.getD []) with
    | .ok v => [mkOk id (.parsed v)]
    | .exn e => [mkErr id (-32603) e]
  else if method = "generate_tests".data then
    match params.gen with
    | .exn e => [mkErr id (-32603) e]
    | .ok g =>
      [mkOk id (.genRes (generate_tests_for_function env.apiKey env.llm env.parse
        env.extractImports g.func_name defaultRecursionLimit))]
  else if method = "run_tests".data then
    [mkOk id (.runRes (run_pytest env.fsExists env.sysExecutable env.spawn
      (params.test_path.getD []) params.test_function).1)]
  else if method = "validate_syntax".data then
    [mkOk id (.valRes (validate_python_syntax_model env.parse (params.code.getD [])))]
  else
    [mkErr id (-32601) ("Method not found: ".data ++ method)]

/-- The stderr line of `main`'s two exception handlers. -/
def logPrefix (isJsonError : Bool) : Str :=
  if isJsonError then "JSON decode error: ".data else "Server error: ".data

/-- The `main` loop: responses emitted, stderr log lines, and — when the
loop ended because `read_message` returned `None` — the unread remainder
of standard input (`none` marks fuel exhaustion, unreachable for
`fuel > `number of frames). -/
def serverRun (env : SEnv) : Nat → Str → List Response × List Str × Option Str
  | 0, _ => ([], [], none)
  | fuel + 1, stdin =>
    match read_message env.jloads stdin with
    | (.eofStop, rest) => ([], [], some rest)
    | (.raised isJ e, rest) =>
      let r := serverRun env fuel rest
      (r.1, (logPrefix isJ ++ e) :: r.2.1, r.2.2)
    | (.msg m, rest) =>
      let r := serverRun env fuel rest
      (handle_request env m.method m.params m.id ++ r.1, r.2.1, r.2.2)

/-- Specification-side trace: the ids of the successfully decoded
requests, in arrival order. -/
def decodedIds (env : SEnv) : Nat → Str → List (Option Int)
  | 0, _ => []
  | fuel + 1, stdin =>
    match read_message env.jloads stdin with
    | (.eofStop, _) => []
    | (.raised _ _, rest) => decodedIds env fuel rest
    | (.msg m, rest) => m.id :: decodedIds env fuel rest

/-- `send_response`: the frame written (in a single buffered write) for an
encoded response body — `f"Content-Length: {len(message)}\r\n\r\n{message}"`.
Lengths are in bytes: `json.dumps` output is ASCII by default. -/
def send_response_frame (body : Str) : Str :=
  "Content-Length: ".data ++ natRepr body.length ++ "\r\n\r\n".data ++ body

/-! ### Claims C3, C6, C7, C10 -/

lemma handle_request_ids (env : SEnv) (method : Str) (params : Params) (id : Option Int) :
    (handle_request env method params id).map Response.id = [id] := by
  unfold handle_request
  split_ifs
  · cases env.parseFileOracle (params.file_path.getD []) <;> rfl
  · cases params.gen <;> rfl
  · rfl
  · rfl
  · rfl

/-- Claim C3: the responses emitted by the server loop are exactly one per
successfully decoded request, in order, each carrying that request's id —
and none for a message whose body could not be decoded. -/
theorem C3_one_response_per_request (env : SEnv) (fuel : Nat) (stdin : Str) :
    ((serverRun env fuel stdin).1).map Response.id = decodedIds env fuel stdin := by
  induction fuel generalizing stdin with
  | zero => rfl
  | succ f ih =>
    rw [serverRun, decodedIds]
    cases hr : read_message env.jloads stdin with
    | mk outcome rest =>
      cases outcome with
      | eofStop => rfl
      | raised isJ e => exact ih rest
      | msg m =>
        simp only [List.map_append, handle_request_ids, ih rest]
        rfl

/-- Concrete server environment for witnesses and counterexamples: the
JSON decode oracle always fails. -/
def envCex : SEnv :=
  { jloads := fun _ => .exn "Expecting value: line 1 column 1 (char 0)".data
    parseFileOracle := fun _ => .ok []
    apiKey := []
    llm := fun _ => []
    parse := fun _ => none
    extractImports := fun _ => []
    fsExists := fun _ => false
    sysExecutable := "python".data
    spawn := fun _ => .timedOut }

/-- Claim C6, counterexample: a malformed frame whose header block carries
no `Content-Length` is *not* logged — `read_message` returns `None` and
the loop terminates although the stream is not at end-of-stream: the
well-formed frame that follows is never read. -/
theorem C6_counterexample :
    serverRun envCex 30 "Foo: 1\n\nContent-Length: 2\n\nhi".data
      = ([], [], some "Content-Length: 2\n\nhi".data)
    ∧ "Content-Length: 2\n\nhi".data ≠ [] := by
  decide

/-- Claim C6, amended: a frame whose `Content-Length` value fails integer
parsing, or whose body fails to decode, is logged to the side channel and
the loop continues without emitting a response; but the loop terminates
whenever `read_message` returns `None` — on end-of-stream and equally on
any frame whose header block lacks a positive `Content-Length`, which
silently ends the loop with the remaining input unread. -/
theorem C6_amended (env : SEnv) (fuel : Nat) (stdin : Str) (isJ : Bool) (e rest rest2 : Str) :
    (read_message env.jloads stdin = (.raised isJ e, rest) →
      serverRun env (fuel + 1) stdin
        = ((serverRun env fuel rest).1,
           (logPrefix isJ ++ e) :: (serverRun env fuel rest).2.1,
           (serverRun env fuel rest).2.2))
    ∧ (read_message env.jloads stdin = (.eofStop, rest2) →
      serverRun env (fuel + 1) stdin = ([], [], some rest2)) := by
  constructor
  · intro h
    rw [serverRun, h]
  · intro h
    rw [serverRun, h]

/-- Claim C6, amended, witness: a body that fails to decode is logged with
the JSON prefix and the loop continues to the (empty) remainder. -/
theorem C6_amended_witness :
    serverRun envCex 3 "Content-Length: 5\n\nhello".data
      = ((serverRun envCex 2 []).1,
         (logPrefix true ++ "Expecting value: line 1 column 1 (char 0)".data)
           :: (serverRun envCex 2 []).2.1,
         (serverRun envCex 2 []).2.2) :=
  (C6_amended envCex 2 "Content-Length: 5\n\nhello".data true
    "Expecting value: line 1 column 1 (char 0)".data [] []).1 (by decide)

/-- Claim C7: on a path that does not exist, `run_pytest` returns zero
counts, no outcomes, and a non-empty error naming the path — and spawns no
subprocess. -/
theorem C7_missing_path (fsExists : Str → Bool) (sysExecutable : Str)
    (spawn : List Str → SpawnOutcome) (test_path : Str) (test_function : Option Str)
    (h : fsExists test_path = false) :
    run_pytest fsExists sysExecutable spawn test_path test_function
      = ({ outcomes := [], total := 0, passed := 0, failed := 0
           error := some ("Test path not found: ".data ++ test_path) }, [])
    ∧ ("Test path not found: ".data ++ test_path) ≠ [] := by
  constructor
  · unfold run_pytest
    rw [if_pos h]
  · intro hc
    have := congrArg List.length hc
    simp [List.length_append] at this

/-- Claim C7, witness. -/
theorem C7_missing_path_witness :
    run_pytest (fun _ => false) "python".data (fun _ => .timedOut) "/nope/test_x.py".data none
      = ({ outcomes := [], total := 0, passed := 0, failed := 0
           error := some ("Test path not found: ".data ++ "/nope/test_x.py".data) }, [])
    ∧ ("Test path not found: ".data ++ "/nope/test_x.py".data) ≠ [] :=
  C7_missing_path (fun _ => false) "python".data (fun _ => .timedOut)
    "/nope/test_x.py".data none rfl

/-- Claim C10: `validate_syntax` on an empty or absent `code` parameter
answers `{"valid": True}` with no `error` or `line` members (the empty
string parses as an empty module), while the pipeline's internal
validation step reports empty generated code as invalid. -/
theorem C10_validate_empty (env : SEnv) (params : Params) (id : Option Int)
    (hparse : env.parse [] = none)
    (hcode : params.code = none ∨ params.code = some []) :
    handle_request env "validate_syntax".data params id
      = [mkOk id (.valRes { valid := true, error := none, line := none })]
    ∧ (∀ s : PState, codeFalsy s.generated_code = true →
        (validate_code_node env.parse s).validation_result
          = some ⟨false, some noCodeMsg⟩) := by
  constructor
  · have hc : params.code.getD [] = [] := by
      rcases hcode with h | h <;> rw [h] <;> rfl
    unfold handle_request
    rw [if_neg (by decide), if_neg (by decide), if_neg (by decide), if_pos rfl]
    unfold validate_python_syntax_model
    rw [hc, hparse]
  · intro s h
    unfold validate_code_node
    rw [if_pos h]

/-- Claim C10, witness: the concrete environment (whose parse oracle
accepts the empty string, as `ast.parse("")` does) with an absent `code`
parameter. -/
theorem C10_validate_empty_witness :
    handle_request envCex "validate_syntax".data
      { file_path := none, code := none, test_path := none, test_function := none
        gen := .exn [] } (some 1)
      = [mkOk (some 1) (.valRes { valid := true, error := none, line := none })]
    ∧ (validate_code_node envCex.parse sEmptyCode).validation_result
        = some ⟨false, some noCodeMsg⟩ := by
  have h := C10_validate_empty envCex
    { file_path := none, code := none, test_path := none, test_function := none
      gen := .exn [] } (some 1) rfl (Or.inl rfl)
  exact ⟨h.1, h.2 sEmptyCode (by decide)⟩

/-! ### Claim C9: framing of outbound responses

The decimal length header written by `send_response` is parsed back by the
`read_message` model: a frame is the header, a blank line, and exactly
`len(body)` bytes of body, with no trailing delimiter — so any suffix
appended after the body is left unconsumed. -/

lemma digitChar_isDigit (n : Nat) (h : n < 10) : (digitChar n).isDigit = true := by
  interval_cases n <;> decide

lemma digitVal_digitChar (n : Nat) (h : n < 10) : digitVal (digitChar n) = n := by
  interval_cases n <;> decide

lemma natDigitsAux_spec : ∀ (f n : Nat), n < f →
    natDigitsAux f n ≠ []
    ∧ (natDigitsAux f n).all Char.isDigit = true
    ∧ (natDigitsAux f n).foldl (fun a c => a * 10 + digitVal c) 0 = n := by
  intro f
  induction f with
  | zero => intro n h; omega
  | succ f ih =>
    intro n h
    by_cases h10 : n < 10
    · refine ⟨by simp [natDigitsAux, h10], ?_, ?_⟩
      · simp [natDigitsAux, h10, digitChar_isDigit n h10]
      · simp [natDigitsAux, h10, digitVal_digitChar n h10]
    · have hd : n / 10 < f := by
        have h1 : n / 10 < n := Nat.div_lt_self (by omega) (by omega)
        omega
      obtain ⟨hne, hall, hval⟩ := ih (n / 10) hd
      rw [natDigitsAux, if_neg h10]
      refine ⟨by simp, ?_, ?_⟩
      · rw [List.all_append, hall]
        simp [digitChar_isDigit (n % 10) (Nat.mod_lt _ (by omega))]
      · rw [List.foldl_append, hval]
        simp only [List.foldl_cons, List.foldl_nil]
        rw [digitVal_digitChar (n % 10) (Nat.mod_lt _ (by omega))]
        omega

lemma natRepr_spec (n : Nat) :
    natRepr n ≠ [] ∧ (natRepr n).all Char.isDigit = true
    ∧ (natRepr n).foldl (fun a c => a * 10 + digitVal c) 0 = n :=
  natDigitsAux_spec (n + 1) n (by omega)

lemma digitsVal_natRepr (n : Nat) : digitsVal (natRepr n) = some n := by
  obtain ⟨h1, h2, h3⟩ := natRepr_spec n
  unfold digitsVal
  rw [if_pos ⟨h1, h2⟩, h3]

lemma isDigit_not_space (c : Char) (h : c.isDigit = true) : pyIsSpace c = false := by
  by_contra hc
  rw [Bool.not_eq_false] at hc
  unfold pyIsSpace at hc
  simp only [Bool.or_eq_true, beq_iff_eq] at hc
  rcases hc with ((((h1 | h1) | h1) | h1) | h1) | h1 <;> (subst h1; exact absurd h (by decide))

lemma dropWhile_space_digits (l : Str) (h : l.all Char.isDigit = true) :
    l.dropWhile pyIsSpace = l := by
  cases l with
  | nil => rfl
  | cons c rest =>
    rw [List.all_cons, Bool.and_eq_true] at h
    rw [List.dropWhile_cons, if_neg (by simp [isDigit_not_space c h.1])]

lemma pyStrip_digits (l : Str) (h : l.all Char.isDigit = true) : pyStrip l = l := by
  unfold pyStrip
  rw [dropWhile_space_digits l h]
  rw [dropWhile_space_digits l.reverse (by rw [List.all_reverse]; exact h)]
  exact List.reverse_reverse l

lemma pyStrip_space_digits (l : Str) (h : l.all Char.isDigit = true) :
    pyStrip (' ' :: l) = l := by
  unfold pyStrip
  rw [List.dropWhile_cons, if_pos (by decide)]
  rw [dropWhile_space_digits l h]
  rw [dropWhile_space_digits l.reverse (by rw [List.all_reverse]; exact h)]
  exact List.reverse_reverse l

lemma natRepr_head_digit (n : Nat) : ∃ c cs, natRepr n = c :: cs ∧ c.isDigit = true := by
  obtain ⟨h1, h2, -⟩ := natRepr_spec n
  cases hh : natRepr n with
  | nil => exact absurd hh h1
  | cons c cs =>
    refine ⟨c, cs, rfl, ?_⟩
    rw [hh, List.all_cons, Bool.and_eq_true] at h2
    exact h2.1

lemma pyInt_natRepr (n : Nat) : pyInt (natRepr n) = some (n : Int) := by
  obtain ⟨c, cs, hc, hdig⟩ := natRepr_head_digit n
  unfold pyInt
  rw [pyStrip_digits (natRepr n) (natRepr_spec n).2.1]
  rw [hc]
  have ht : (c :: cs).take 1 = [c] := rfl
  rw [ht]
  rw [if_neg ?hm]
  case hm =>
    intro hx
    injection hx with hx
    subst hx
    exact absurd hdig (by decide)
  rw [if_neg ?hp]
  case hp =>
    intro hx
    injection hx with hx
    subst hx
    exact absurd hdig (by decide)
  rw [← hc, digitsVal_natRepr]
  rfl

lemma pyReadline_append (l : Str) (r : Str)
    (h : l.all (fun c => !(c == '\n')) = true) :
    pyReadline (l ++ '\n' :: r) = (l ++ ['\n'], r) := by
  induction l with
  | nil => simp [pyReadline]
  | cons c cs ih =>
    rw [List.all_cons, Bool.and_eq_true] at h
    obtain ⟨h1, h2⟩ := h
    have hc : ¬ c = '\n' := by
      intro he
      subst he
      simp at h1
    simp only [List.cons_append, pyReadline, List.append_eq]
    rw [if_neg hc, ih h2]

lemma pyFindAux_single_append (c : Char) :
    ∀ (l t : Str) (i : Nat), l.all (fun d => !(c == d)) = true →
      pyFindAux [c] (l ++ t) i = pyFindAux [c] t (i + l.length) := by
  intro l
  induction l with
  | nil => intro t i h; simp
  | cons d ds ih =>
    intro t i h
    rw [List.all_cons, Bool.and_eq_true] at h
    obtain ⟨h1, h2⟩ := h
    have hsp : strPrefix [c] (d :: (ds ++ t)) = false := by
      simp only [strPrefix, Bool.and_true]
      cases hbe : (c == d) with
      | true =>
        rw [hbe] at h1
        exact absurd h1 (by decide)
      | false => rfl
    simp only [List.cons_append, pyFindAux, List.append_eq]
    rw [if_neg (by simp [hsp]), ih t (i + 1) h2]
    congr 1
    simp only [List.length_cons]
    omega

lemma pyFind_colon_header (digits : Str) :
    pyFind ("Content-Length: ".data ++ digits) ":".data 0 = some 14 := by
  have hsplit : "Content-Length: ".data ++ digits
      = "Content-Length".data ++ (':' :: ' ' :: digits) := by
    have hd : ("Content-Length: ".data : Str)
        = "Content-Length".data ++ [':', ' '] := by decide
    rw [hd, List.append_assoc]
    rfl
  unfold pyFind
  rw [List.drop_zero, hsplit]
  rw [pyFindAux_single_append ':' "Content-Length".data (':' :: ' ' :: digits) 0 (by decide)]
  simp [pyFindAux, strPrefix]

lemma splitColon_header (digits : Str) :
    splitColon ("Content-Length: ".data ++ digits)
      = some ("Content-Length".data, ' ' :: digits) := by
  unfold splitColon
  rw [pyFind_colon_header digits]
  simp only []
  have hkey : pySlice ("Content-Length: ".data ++ digits) 0 14 = "Content-Length".data := by
    unfold pySlice
    rw [List.drop_zero, Nat.sub_zero]
    rw [List.take_append_eq_append_take]
    have h1 : ("Content-Length: ".data : Str).take 14 = "Content-Length".data := by decide
    have h2 : (14 : Nat) - ("Content-Length: ".data : Str).length = 0 := by decide
    rw [h1, h2, List.take_zero, List.append_nil]
  have hval : pySlice ("Content-Length: ".data ++ digits) 15
      (("Content-Length: ".data ++ digits).length) = ' ' :: digits := by
    unfold pySlice
    rw [List.drop_append_eq_append_drop]
    have h1 : ("Content-Length: ".data : Str).drop 15 = [' '] := by decide
    have h2 : (15 : Nat) - ("Content-Length: ".data : Str).length = 0 := by decide
    rw [h1, h2, List.drop_zero]
    have h3 : ([' '] ++ digits : Str) = ' ' :: digits := rfl
    rw [h3]
    apply List.take_of_length_le
    simp only [List.length_append, List.length_cons]
    have h4 : ("Content-Length: ".data : Str).length = 16 := by decide
    omega
  rw [hkey, hval]

lemma digits_no_newline (l : Str) (h : l.all Char.isDigit = true) :
    l.all (fun c => !(c == '\n')) = true := by
  rw [List.all_eq_true] at h ⊢
  intro c hcm
  have hd := h c hcm
  simp only [Bool.not_eq_true']
  cases hbe : (c == '\n') with
  | false => rfl
  | true =>
    rw [beq_iff_eq] at hbe
    subst hbe
    exact absurd (by decide : ('\n'.isDigit = false)) (by simp [hd])

lemma pyStrip_header_line (digits : Str) (hne : digits ≠ [])
    (hd : digits.all Char.isDigit = true) :
    pyStrip (("Content-Length: ".data ++ digits) ++ ['\r', '\n'])
      = "Content-Length: ".data ++ digits := by
  unfold pyStrip
  have hcons : (("Content-Length: ".data ++ digits) ++ ['\r', '\n'] : Str)
      = 'C' :: (("ontent-Length: ".data ++ digits) ++ ['\r', '\n']) := by
    have h0 : ("Content-Length: ".data : Str) = 'C' :: "ontent-Length: ".data := by decide
    rw [h0]
    rfl
  rw [hcons, List.dropWhile_cons, if_neg (by decide)]
  rw [← hcons]
  have hrev : ((("Content-Length: ".data ++ digits) ++ ['\r', '\n']).reverse : Str)
      = '\n' :: '\r' :: (digits.reverse ++ ("Content-Length: ".data).reverse) := by
    simp [List.reverse_append]
  rw [hrev]
  rw [List.dropWhile_cons, if_pos (by decide)]
  rw [List.dropWhile_cons, if_pos (by decide)]
  obtain ⟨d, ds, hds⟩ : ∃ d ds, digits.reverse = d :: ds := by
    cases hx : digits.reverse with
    | nil =>
      exact absurd (by simpa using congrArg List.reverse hx) hne
    | cons d ds => exact ⟨d, ds, rfl⟩
  have hddig : d.isDigit = true := by
    have hmem : d ∈ digits := by
      rw [← List.mem_reverse, hds]
      exact List.mem_cons_self d ds
    rw [List.all_eq_true] at hd
    exact hd d hmem
  rw [hds, List.cons_append, List.dropWhile_cons,
    if_neg (by simp [isDigit_not_space d hddig])]
  rw [← List.cons_append, ← hds, ← List.reverse_append, List.reverse_reverse]

lemma readHeaders_frame (body rest : Str) (_hne : body ≠ []) :
    readHeaders ((send_response_frame body ++ rest).length + 1)
        (send_response_frame body ++ rest) []
      = some ([("Content-Length".data, natRepr body.length)], body ++ rest) := by
  obtain ⟨hdne, hdall, -⟩ := natRepr_spec body.length
  have hF : send_response_frame body ++ rest
      = (("Content-Length: ".data ++ natRepr body.length) ++ ['\r'])
        ++ '\n' :: ('\r' :: '\n' :: (body ++ rest)) := by
    unfold send_response_frame
    simp [List.append_assoc]
  rw [readHeaders]
  rw [hF]
  rw [pyReadline_append (("Content-Length: ".data ++ natRepr body.length) ++ ['\r'])
    ('\r' :: '\n' :: (body ++ rest)) ?hnl]
  case hnl =>
    simp only [List.all_append, Bool.and_eq_true]
    refine ⟨⟨by decide, digits_no_newline _ hdall⟩, by decide⟩
  simp only []
  rw [if_neg (by simp)]
  have hline : ((("Content-Length: ".data ++ natRepr body.length) ++ ['\r']) ++ ['\n'] : Str)
      = ("Content-Length: ".data ++ natRepr body.length) ++ ['\r', '\n'] := by
    simp
  rw [hline, pyStrip_header_line (natRepr body.length) hdne hdall]
  rw [if_neg (by simp)]
  rw [splitColon_header (natRepr body.length)]
  simp only []
  have hkeystrip : pyStrip ("Content-Length".data : Str) = "Content-Length".data := by decide
  rw [hkeystrip, pyStrip_space_digits (natRepr body.length) hdall]
  have hpos : 0 < ((("Content-Length: ".data ++ natRepr body.length) ++ ['\r'])
      ++ '\n' :: ('\r' :: '\n' :: (body ++ rest))).length := by
    simp
  obtain ⟨f2, hf2⟩ : ∃ k, ((("Content-Length: ".data ++ natRepr body.length) ++ ['\r'])
      ++ '\n' :: ('\r' :: '\n' :: (body ++ rest))).length = k + 1 :=
    ⟨((("Content-Length: ".data ++ natRepr body.length) ++ ['\r'])
      ++ '\n' :: ('\r' :: '\n' :: (body ++ rest))).length - 1, by omega⟩
  rw [hf2, readHeaders]
  have hrl : pyReadline ('\r' :: '\n' :: (body ++ rest)) = ('\r' :: ['\n'], body ++ rest) := by
    rw [show ('\r' :: '\n' :: (body ++ rest) : Str) = ['\r'] ++ '\n' :: (body ++ rest) from rfl]
    exact pyReadline_append ['\r'] (body ++ rest) (by decide)
  rw [hrl]
  simp only []
  rw [if_neg (by simp)]
  have hstrip2 : pyStrip ['\r', '\n'] = ([] : Str) := by decide
  rw [hstrip2, if_pos rfl]

lemma read_message_frame (jloads : Str → PyResult RpcMsg) (body rest : Str)
    (hne : body ≠ []) :
    read_message jloads (send_response_frame body ++ rest)
      = (match jloads body with
         | .ok m => (ReadOutcome.msg m, rest)
         | .exn e => (ReadOutcome.raised true e, rest)) := by
  unfold read_message
  rw [readHeaders_frame body rest hne]
  simp only []
  have hlk : lookupHeader [("Content-Length".data, natRepr body.length)] "Content-Length".data
      = some (natRepr body.length) := by
    unfold lookupHeader
    rw [if_pos rfl]
  rw [hlk]
  simp only []
  rw [pyInt_natRepr body.length]
  simp only []
  have hlp : 0 < body.length := List.length_pos.mpr hne
  rw [if_neg (by omega)]
  have hpr : pyRead (body.length : Int) (body ++ rest) = (body, rest) := by
    unfold pyRead
    rw [if_neg (by omega)]
    have htn : ((body.length : Int)).toNat = body.length := rfl
    rw [htn]
    rw [List.take_left, List.drop_left]
  rw [hpr]

/-- Claim C9: an outbound frame is the `Content-Length` header declaring
the body's byte count, a blank line, and exactly that many bytes of body
with no trailing delimiter: reading the frame back consumes exactly the
frame, decodes exactly the body, and leaves any appended suffix
untouched. -/
theorem C9_framing (jloads : Str → PyResult RpcMsg) (body rest : Str) (h : body ≠ []) :
    send_response_frame body
      = "Content-Length: ".data ++ natRepr body.length
        ++ ('\r' :: '\n' :: '\r' :: '\n' :: body)
    ∧ read_message jloads (send_response_frame body ++ rest)
      = (match jloads body with
         | .ok m => (ReadOutcome.msg m, rest)
         | .exn e => (ReadOutcome.raised true e, rest)) := by
  constructor
  · unfold send_response_frame
    simp [List.append_assoc]
  · exact read_message_frame jloads body rest h

/-- Claim C9, witness: the frame around the body `null`, decoded by the
concrete environment. -/
theorem C9_framing_witness :
    send_response_frame "null".data
      = "Content-Length: ".data ++ natRepr ("null".data).length
        ++ ('\r' :: '\n' :: '\r' :: '\n' :: "null".data)
    ∧ read_message envCex.jloads (send_response_frame "null".data ++ "EXTRA".data)
      = (ReadOutcome.raised true "Expecting value: line 1 column 1 (char 0)".data,
         "EXTRA".data) := by
  have h := C9_framing envCex.jloads "null".data "EXTRA".data (by decide)
  refine ⟨h.1, ?_⟩
  rw [h.2]
  decide

end Rora
